import Mathlib

/-!
Verification of the AI-voice-detection pipeline (audio_processor.py,
detector.py) against its natural-language specification.

The embedding models the pipeline over exact rationals.  External library
calls (the pydub MP3 container decoder, the librosa resampler, the librosa
feature transforms, the numpy tanh and the numpy Gaussian draw) are taken
as explicit function parameters: the repository code is embedded faithfully
around them.  The Python standard-library base64 decoder is embedded
directly, since its behaviour on empty and whitespace-only input decides
one of the properties below.
-/

namespace VoiceDetection

/-! ## Base64 decoding (Python standard library base64.b64decode)

Python discards every character outside the base64 alphabet and the padding
character, then requires the remaining length to be a multiple of four;
each retained group of four characters yields up to three bytes. -/

/-- True for the 64 alphabet characters A-Z, a-z, 0-9, plus and slash. -/
def isBase64Char (c : Char) : Bool :=
  decide (65 ≤ c.toNat ∧ c.toNat ≤ 90) ||
  decide (97 ≤ c.toNat ∧ c.toNat ≤ 122) ||
  decide (48 ≤ c.toNat ∧ c.toNat ≤ 57) ||
  c == '+' || c == '/'

/-- Six-bit value of one base64 alphabet character. -/
def b64CharVal (c : Char) : Nat :=
  if 65 ≤ c.toNat ∧ c.toNat ≤ 90 then c.toNat - 65
  else if 97 ≤ c.toNat ∧ c.toNat ≤ 122 then c.toNat - 71
  else if 48 ≤ c.toNat ∧ c.toNat ≤ 57 then c.toNat + 4
  else if c == '+' then 62
  else 63

/-- Decode retained base64 characters four at a time into bytes; a padded
group ends the payload, as in the Python decoder. -/
def b64DecodeGroups : List Char → List Nat
  | c1 :: c2 :: c3 :: c4 :: rest =>
    let v1 := b64CharVal c1
    let v2 := b64CharVal c2
    let v3 := b64CharVal c3
    let v4 := b64CharVal c4
    if c3 == '=' then [v1 * 4 + v2 / 16]
    else if c4 == '=' then [v1 * 4 + v2 / 16, v2 % 16 * 16 + v3 / 4]
    else (v1 * 4 + v2 / 16) :: (v2 % 16 * 16 + v3 / 4) :: (v3 % 4 * 64 + v4) ::
      b64DecodeGroups rest
  | _ => []

/-- Python base64.b64decode: drop characters outside the alphabet and the
padding character, demand a length that is a multiple of four, decode. -/
def b64decode (base64_string : String) : Except String (List Nat) :=
  let kept := base64_string.toList.filter (fun c => isBase64Char c || c == '=')
  if kept.length % 4 = 0 then Except.ok (b64DecodeGroups kept)
  else Except.error "Invalid base64-encoded string"

/-! ## Decoding and normalization (AudioProcessor.base64_to_audio) -/

/-- The raw decoded container as pydub exposes it: channel count, bytes per
sample, native frame rate, and the interleaved integer sample array
returned by get_array_of_samples. -/
structure RawSegment where
  channels : Nat
  sample_width : Nat
  frame_rate : Nat
  samples : List Int

/-- Normalized audio: floating-point samples plus a sample rate. -/
structure AudioBuffer where
  samples : List ℚ
  sample_rate : Nat

/-- Integer-to-float conversion of audio_processor.py lines 36-39: 16-bit
samples are divided by 32768, 32-bit samples by 2147483648, and any other
width is left unscaled (there is no else branch in the source). -/
def convert_width (sample_width : Nat) (samples : List Int) : List ℚ :=
  if sample_width = 2 then samples.map (fun (x : Int) => (x : ℚ) / 32768)
  else if sample_width = 4 then samples.map (fun (x : Int) => (x : ℚ) / 2147483648)
  else samples.map (fun (x : Int) => (x : ℚ))

/-- Stereo downmix of audio_processor.py line 43: reshape the interleaved
samples into pairs and take the per-pair mean.  Interleaved two-channel
data always has even length; numpy reshape rejects an odd length, so the
unpaired-tail case is unreachable on the stereo path. -/
def downmix_stereo : List ℚ → List ℚ
  | [] => []
  | [_] => []
  | a :: b :: rest => (a + b) / 2 :: downmix_stereo rest

/-- The float conversion followed by the conditional stereo downmix, the
part of base64_to_audio between container decode and resampling. -/
def normalize_segment (seg : RawSegment) : List ℚ :=
  let floats := convert_width seg.sample_width seg.samples
  if seg.channels = 2 then downmix_stereo floats else floats

/-- Body of AudioProcessor.base64_to_audio before the exception wrapper:
base64 decode, container decode, float conversion, downmix, and the
conditional resample.  mp3_decode stands for pydub AudioSegment.from_file
and resample for librosa.resample. -/
def base64_to_audio_body (mp3_decode : List Nat → Except String RawSegment)
    (resample : List ℚ → Nat → Nat → List ℚ)
    (sample_rate : Nat) (base64_string : String) : Except String AudioBuffer := do
  let audio_bytes ← b64decode base64_string
  let seg ← mp3_decode audio_bytes
  let samples := normalize_segment seg
  let samples := if seg.frame_rate ≠ sample_rate
    then resample samples seg.frame_rate sample_rate else samples
  pure ⟨samples, sample_rate⟩

/-- AudioProcessor.base64_to_audio: any failure in the body is re-raised as
ValueError with the message prefixed by the words in the source. -/
def base64_to_audio (mp3_decode : List Nat → Except String RawSegment)
    (resample : List ℚ → Nat → Nat → List ℚ)
    (sample_rate : Nat) (base64_string : String) : Except String AudioBuffer :=
  match base64_to_audio_body mp3_decode resample sample_rate base64_string with
  | Except.ok buf => Except.ok buf
  | Except.error e => Except.error ("Error processing audio: " ++ e)

/-- Control in base64_to_audio reaches the container decode call exactly
when the base64 decode on the input string succeeded: the source contains
no guard between the two calls. -/
def base64_to_audio_decode_attempted (base64_string : String) : Bool :=
  match b64decode base64_string with
  | Except.ok _ => true
  | Except.error _ => false

/-- Whitespace characters in the sense of the specification sentence about
whitespace-only input: space, tab, newline, carriage return. -/
def isWhitespaceChar (c : Char) : Bool :=
  c == ' ' || c == '\t' || c == '\n' || c == '\r'

/-! ## Feature extraction (AudioProcessor.extract_features)

The librosa transforms are external; the claims under verification use
only the six statistics read by the scorer, so the extraction body is an
explicit parameter producing those statistics, and the repository function
is its exception wrapper. -/

/-- The six statistics of extract_features that the scorer reads:
per-coefficient MFCC variances, spectral-centroid variance, RMS variance,
per-class chroma standard deviations, per-dimension tonnetz standard
deviations, and the zero-crossing-rate standard deviation. -/
structure FeatureSet where
  mfcc_var : List ℚ
  spectral_centroid_var : ℚ
  rms_var : ℚ
  chroma_std : List ℚ
  tonnetz_std : List ℚ
  zcr_std : ℚ

/-- AudioProcessor.extract_features: the librosa computations (the body)
wrapped so that any failure is re-raised as ValueError with the message
prefix in the source. -/
def extract_features (extract_body : AudioBuffer → Except String FeatureSet)
    (buf : AudioBuffer) : Except String FeatureSet :=
  match extract_body buf with
  | Except.ok f => Except.ok f
  | Except.error e => Except.error ("Error extracting features: " ++ e)

/-- numpy mean of a vector (sum divided by length). -/
def npMean (xs : List ℚ) : ℚ := xs.sum / xs.length

/-! ## Scoring (VoiceDetector) -/

/-- VoiceDetector.feature_weights, detector.py lines 18-25. -/
def feature_weights : List (String × ℚ) :=
  [("mfcc_consistency", 0.25),
   ("spectral_stability", 0.20),
   ("energy_regularity", 0.15),
   ("pitch_consistency", 0.15),
   ("harmonic_patterns", 0.15),
   ("temporal_variation", 0.10)]

/-- Dictionary access self.feature_weights of the source; every access in
the source uses a present key, so the default is never reached. -/
def weight (name : String) : ℚ := (feature_weights.lookup name).getD 0

/-- VoiceDetector._calculate_ai_score, detector.py lines 63-131.  th stands
for numpy tanh and noise for the value drawn by np.random.normal(0, 0.05);
both are external to the repository. -/
def calculate_ai_score (th : ℚ → ℚ) (noise : ℚ) (features : FeatureSet) : ℚ :=
  let scores : List ℚ :=
    [(1 - th (npMean features.mfcc_var / 100)) * weight "mfcc_consistency",
     (1 - th (features.spectral_centroid_var / 1000000)) * weight "spectral_stability",
     (1 - th (features.rms_var / 0.01)) * weight "energy_regularity",
     (1 - th (npMean features.chroma_std / 0.3)) * weight "pitch_consistency",
     (1 - th (npMean features.tonnetz_std / 0.2)) * weight "harmonic_patterns",
     (1 - th (features.zcr_std / 0.05)) * weight "temporal_variation"]
  let total_score := scores.sum
  let total_score := total_score + noise
  max 0 (min 1 total_score)

/-- The scorer with its randomness source made explicit: normal models one
np.random.normal draw advancing the generator state; when perturb is false
the draw is replaced by the constant zero and the state is untouched. -/
def calculate_ai_score_rng {σ : Type} (th : ℚ → ℚ) (perturb : Bool)
    (normal : σ → ℚ × σ) (rng : σ) (features : FeatureSet) : ℚ × σ :=
  let drawn := if perturb then normal rng else (0, rng)
  (calculate_ai_score th drawn.1 features, drawn.2)

/-! ## Classification and the detect pipeline (VoiceDetector.detect) -/

/-- The classification step of VoiceDetector.detect, lines 47-56: threshold
at 0.5 with the tie going to AI_GENERATED, then the final clamp of the
confidence to the unit interval. -/
def classify (ai_score : ℚ) : String × ℚ :=
  let r := if ai_score ≥ 0.5 then ("AI_GENERATED", ai_score)
    else ("HUMAN", 1 - ai_score)
  (r.1, max 0 (min 1 r.2))

/-- Body of VoiceDetector.detect before the exception wrapper: decode and
normalize, extract features, score, classify. -/
def detect_body (mp3_decode : List Nat → Except String RawSegment)
    (resample : List ℚ → Nat → Nat → List ℚ)
    (extract_body : AudioBuffer → Except String FeatureSet)
    (th : ℚ → ℚ) (noise : ℚ) (sample_rate : Nat)
    (base64_audio : String) : Except String (String × ℚ) := do
  let buf ← base64_to_audio mp3_decode resample sample_rate base64_audio
  let features ← extract_features extract_body buf
  let ai_score := calculate_ai_score th noise features
  pure (classify ai_score)

/-- VoiceDetector.detect: any exception from the body is re-raised as
ValueError with the message prefixed by the words in the source. -/
def detect (mp3_decode : List Nat → Except String RawSegment)
    (resample : List ℚ → Nat → Nat → List ℚ)
    (extract_body : AudioBuffer → Except String FeatureSet)
    (th : ℚ → ℚ) (noise : ℚ) (sample_rate : Nat)
    (base64_audio : String) : Except String (String × ℚ) :=
  match detect_body mp3_decode resample extract_body th noise sample_rate base64_audio with
  | Except.ok r => Except.ok r
  | Except.error e => Except.error ("Detection error: " ++ e)

/-! ## The feature dictionary and AudioProcessor.flatten_features

flatten_features iterates the whole feature dictionary generically, so here
the dictionary is embedded as an association list of named scalar or vector
values, and the Python sorted builtin on string keys as an insertion sort
over code-point lexicographic order. -/

/-- A feature dictionary value: a numpy scalar or a numpy vector. -/
inductive FeatureVal where
  | scalar (x : ℚ)
  | vector (xs : List ℚ)

/-- A Python dictionary with string keys, as an association list; distinct
keys are recorded as a hypothesis where needed. -/
def FeatureDict : Type := List (String × FeatureVal)

/-- Dictionary lookup features[key]. -/
def dictGet (key : String) : List (String × FeatureVal) → Option FeatureVal
  | [] => none
  | (k, v) :: rest => if key = k then some v else dictGet key rest

/-- Appending one dictionary value to the flat list: a vector contributes
its elements in index order, a scalar contributes itself. -/
def expandVal : FeatureVal → List ℚ
  | FeatureVal.scalar x => [x]
  | FeatureVal.vector xs => xs

/-- Code-point lexicographic order on character lists, the order the Python
sorted builtin uses on strings. -/
def charListLe : List Char → List Char → Bool
  | [], _ => true
  | _ :: _, [] => false
  | a :: as, b :: bs =>
    if a.toNat < b.toNat then true
    else if b.toNat < a.toNat then false
    else charListLe as bs

/-- Code-point lexicographic order on strings. -/
def keyLe (a b : String) : Bool := charListLe a.toList b.toList

/-- The same order as a proposition, for the sorting lemmas. -/
abbrev keyOrder (a b : String) : Prop := keyLe a b = true

/-- AudioProcessor.flatten_features: iterate the keys in sorted order and
concatenate the expanded values.  The none branch is unreachable because
every iterated key comes from the dictionary itself. -/
def flatten_features (features : List (String × FeatureVal)) : List ℚ :=
  (List.insertionSort keyOrder (features.map Prod.fst)).flatMap
    (fun key => match dictGet key features with
      | some v => expandVal v
      | none => [])

/-! ## Helper lemmas -/

theorem except_bind_ok {α β : Type} (a : α) (f : α → Except String β) :
    (Except.ok a >>= f) = f a := rfl

theorem except_bind_error {α β : Type} (e : String) (f : α → Except String β) :
    ((Except.error e : Except String α) >>= f) = Except.error e := rfl

theorem weight_mfcc : weight "mfcc_consistency" = 0.25 := by
  simp [weight, feature_weights, List.lookup]

theorem weight_spectral : weight "spectral_stability" = 0.20 := by
  simp [weight, feature_weights, List.lookup]

theorem weight_energy : weight "energy_regularity" = 0.15 := by
  simp [weight, feature_weights, List.lookup]

theorem weight_pitch : weight "pitch_consistency" = 0.15 := by
  simp [weight, feature_weights, List.lookup]

theorem weight_harmonic : weight "harmonic_patterns" = 0.15 := by
  simp [weight, feature_weights, List.lookup]

theorem weight_temporal : weight "temporal_variation" = 0.10 := by
  simp [weight, feature_weights, List.lookup]

/-! ## Claim theorems -/

/-- Claim C1: for every score in the unit interval, classify returns
AI_GENERATED with confidence equal to the score when the score is at least
0.5 (the tie at exactly 0.5 classifies as AI_GENERATED, see the witness),
and HUMAN with confidence 1.0 minus the score otherwise; the returned
confidence lies in the unit interval and the label is one of the two
values. -/
theorem classify_spec (s : ℚ) (h0 : 0 ≤ s) (h1 : s ≤ 1) :
    (0.5 ≤ s → classify s = ("AI_GENERATED", s)) ∧
    (s < 0.5 → classify s = ("HUMAN", 1 - s)) ∧
    0 ≤ (classify s).2 ∧ (classify s).2 ≤ 1 ∧
    ((classify s).1 = "AI_GENERATED" ∨ (classify s).1 = "HUMAN") := by
  by_cases h : s ≥ 0.5
  · have hc : classify s = ("AI_GENERATED", s) := by
      unfold classify
      rw [if_pos h]
      simp [min_eq_right h1, max_eq_right h0]
    rw [hc]
    exact ⟨fun _ => rfl, fun hlt => absurd h (not_le.mpr hlt), h0, h1, Or.inl rfl⟩
  · have hs : s < 0.5 := not_le.mp h
    have h1s0 : 0 ≤ 1 - s := by linarith
    have h1s1 : 1 - s ≤ 1 := by linarith
    have hc : classify s = ("HUMAN", 1 - s) := by
      unfold classify
      rw [if_neg h]
      simp [min_eq_right h1s1, max_eq_right h1s0]
    rw [hc]
    exact ⟨fun hge => absurd hge h, fun _ => rfl, h1s0, h1s1, Or.inr rfl⟩

/-- Witness for C1 at the boundary score 0.5: the tie classifies as
AI_GENERATED with confidence 0.5. -/
theorem classify_spec_witness :
    classify 0.5 = ("AI_GENERATED", 0.5) ∧
    0 ≤ (classify 0.5).2 ∧ (classify 0.5).2 ≤ 1 := by
  have h := classify_spec 0.5 (by norm_num) (by norm_num)
  exact ⟨h.1 (by norm_num), h.2.2.1, h.2.2.2.1⟩

/-- Claim C2: the scorer computes the six weighted saturating sub-scores
of the specification table, sums them, adds the perturbation term, and
clamps the result to the unit interval; the six weights sum to one. -/
theorem calculate_ai_score_formula (th : ℚ → ℚ) (noise : ℚ) (f : FeatureSet) :
    calculate_ai_score th noise f =
      max 0 (min 1
        (0.25 * (1 - th (npMean f.mfcc_var / 100)) +
         0.20 * (1 - th (f.spectral_centroid_var / 1000000)) +
         0.15 * (1 - th (f.rms_var / 0.01)) +
         0.15 * (1 - th (npMean f.chroma_std / 0.3)) +
         0.15 * (1 - th (npMean f.tonnetz_std / 0.2)) +
         0.10 * (1 - th (f.zcr_std / 0.05)) + noise)) ∧
    (feature_weights.map Prod.snd).sum = 1 := by
  constructor
  · simp only [calculate_ai_score, weight_mfcc, weight_spectral, weight_energy,
      weight_pitch, weight_harmonic, weight_temporal, List.sum_cons, List.sum_nil]
    congr 2
    ring
  · norm_num [feature_weights]

/-- Claim C6: 16-bit integer samples are normalized by dividing by 32768
and 32-bit integer samples by two to the thirty-first power. -/
theorem convert_width_full_scale (xs : List Int) :
    convert_width 2 xs = xs.map (fun (x : Int) => (x : ℚ) / 32768) ∧
    convert_width 4 xs = xs.map (fun (x : Int) => (x : ℚ) / 2 ^ 31) := by
  constructor
  · rfl
  · norm_num [convert_width]

/-- Claim C9: with the random perturbation disabled, the scorer is a pure
function of the feature set: its value does not depend on the randomness
source or on its state. -/
theorem score_pure_without_perturbation {σ₁ σ₂ : Type} (th : ℚ → ℚ)
    (normal₁ : σ₁ → ℚ × σ₁) (normal₂ : σ₂ → ℚ × σ₂) (r₁ : σ₁) (r₂ : σ₂)
    (f : FeatureSet) :
    (calculate_ai_score_rng th false normal₁ r₁ f).1 =
      (calculate_ai_score_rng th false normal₂ r₂ f).1 := rfl

/-- Every character of the filtered base64 alphabet test fails on a
whitespace character, so whitespace contributes no retained characters. -/
theorem whitespace_not_base64 (c : Char) (hws : isWhitespaceChar c = true) :
    (isBase64Char c || c == '=') = false := by
  have hc := hws
  simp only [isWhitespaceChar, Bool.or_eq_true, beq_iff_eq] at hc
  rcases hc with ((h | h) | h) | h <;> subst h <;> decide

/-- For whitespace-only input the retained character list is empty, so the
base64 decode succeeds with zero bytes. -/
theorem b64decode_whitespace (s : String)
    (hws : s.toList.all isWhitespaceChar = true) :
    b64decode s = Except.ok [] := by
  have hmem : ∀ c ∈ s.toList, isWhitespaceChar c = true := List.all_eq_true.mp hws
  have hfilter : s.data.filter (fun c => isBase64Char c || c == '=') = [] := by
    rw [List.filter_eq_nil_iff]
    intro c hc
    rw [whitespace_not_base64 c (hmem c hc)]
    exact Bool.false_ne_true
  simp [b64decode, hfilter, b64DecodeGroups]

/-- Counterexample to claim C3: on empty and on whitespace-only input the
decode-and-normalize stage does not raise anything before decoding; the
base64 decode is performed and succeeds with zero bytes, the container
decode is then attempted, and a failing container decode surfaces as the
generic processing error, not as a dedicated empty-audio error. -/
theorem empty_input_counterexample :
    b64decode "" = Except.ok [] ∧ b64decode " " = Except.ok [] ∧
    base64_to_audio_decode_attempted "" = true ∧
    base64_to_audio_decode_attempted " " = true ∧
    base64_to_audio (fun _ => Except.error "boom") (fun l _ _ => l) 22050 "" =
      Except.error "Error processing audio: boom" :=
  ⟨rfl, rfl, rfl, rfl, rfl⟩

/-- Claim C3 amended: for every empty or whitespace-only input string, the
decode-and-normalize stage attempts the decode rather than rejecting the
input first: the base64 decode succeeds with zero bytes, the container
decode is reached, and a failure there surfaces as the generic processing
error of the stage. -/
theorem empty_input_not_rejected (s : String)
    (hws : s.toList.all isWhitespaceChar = true) :
    b64decode s = Except.ok [] ∧
    base64_to_audio_decode_attempted s = true ∧
    ∀ (mp3_decode : List Nat → Except String RawSegment)
      (resample : List ℚ → Nat → Nat → List ℚ) (sample_rate : Nat) (e : String),
      mp3_decode [] = Except.error e →
      base64_to_audio mp3_decode resample sample_rate s =
        Except.error ("Error processing audio: " ++ e) := by
  have hb : b64decode s = Except.ok [] := b64decode_whitespace s hws
  refine ⟨hb, ?_, ?_⟩
  · simp [base64_to_audio_decode_attempted, hb]
  · intro mp3_decode resample sample_rate e hm
    unfold base64_to_audio base64_to_audio_body
    rw [hb, except_bind_ok, hm, except_bind_error]

/-- Witness for the amended C3 at the concrete whitespace-only input. -/
theorem empty_input_not_rejected_witness :
    base64_to_audio (fun _ => Except.error "decode failed") (fun l _ _ => l)
      22050 " \t" = Except.error "Error processing audio: decode failed" := by
  have h := empty_input_not_rejected " \t" (by decide)
  exact h.2.2 (fun _ => Except.error "decode failed") (fun l _ _ => l)
    22050 "decode failed" rfl

/-- Shared elimination: a successful detect run means every stage
succeeded, and the result is exactly the classification of the score of
the extracted features. -/
theorem detect_ok_elim (mp3_decode : List Nat → Except String RawSegment)
    (resample : List ℚ → Nat → Nat → List ℚ)
    (extract_body : AudioBuffer → Except String FeatureSet)
    (th : ℚ → ℚ) (noise : ℚ) (sample_rate : Nat) (s : String)
    (r : String × ℚ)
    (hr : detect mp3_decode resample extract_body th noise sample_rate s =
      Except.ok r) :
    ∃ buf features,
      base64_to_audio mp3_decode resample sample_rate s = Except.ok buf ∧
      extract_features extract_body buf = Except.ok features ∧
      r = classify (calculate_ai_score th noise features) := by
  cases hb : base64_to_audio mp3_decode resample sample_rate s with
  | error e =>
    rw [detect, detect_body, hb, except_bind_error] at hr
    cases hr
  | ok buf =>
    cases hx : extract_features extract_body buf with
    | error e =>
      rw [detect, detect_body, hb, except_bind_ok, hx, except_bind_error] at hr
      cases hr
    | ok features =>
      refine ⟨buf, features, rfl, hx, ?_⟩
      rw [detect, detect_body, hb, except_bind_ok, hx, except_bind_ok] at hr
      cases hr
      rfl

/-- Claim C4: a failure in any stage surfaces as the single detection
error category with a descriptive message and short-circuits the rest of
the pipeline, and a successful run implies every stage succeeded, so no
partial result is ever returned. -/
theorem detect_short_circuit (mp3_decode : List Nat → Except String RawSegment)
    (resample : List ℚ → Nat → Nat → List ℚ)
    (extract_body : AudioBuffer → Except String FeatureSet)
    (th : ℚ → ℚ) (noise : ℚ) (sample_rate : Nat) (s : String) :
    (∀ e, base64_to_audio mp3_decode resample sample_rate s = Except.error e →
      detect mp3_decode resample extract_body th noise sample_rate s =
        Except.error ("Detection error: " ++ e)) ∧
    (∀ buf e, base64_to_audio mp3_decode resample sample_rate s = Except.ok buf →
      extract_features extract_body buf = Except.error e →
      detect mp3_decode resample extract_body th noise sample_rate s =
        Except.error ("Detection error: " ++ e)) ∧
    (∀ r, detect mp3_decode resample extract_body th noise sample_rate s =
        Except.ok r →
      ∃ buf features,
        base64_to_audio mp3_decode resample sample_rate s = Except.ok buf ∧
        extract_features extract_body buf = Except.ok features ∧
        r = classify (calculate_ai_score th noise features)) := by
  refine ⟨?_, ?_, ?_⟩
  · intro e he
    rw [detect, detect_body, he, except_bind_error]
  · intro buf e hb he
    rw [detect, detect_body, hb, except_bind_ok, he, except_bind_error]
  · intro r hr
    exact detect_ok_elim mp3_decode resample extract_body th noise sample_rate s r hr

/-- Witness for C4: a concrete failing container decode is reported as the
aggregated detection error with the nested stage messages. -/
theorem detect_short_circuit_witness :
    detect (fun _ => Except.error "bad frame") (fun l _ _ => l)
      (fun _ => Except.ok ⟨[0], 0, 0, [0], [0], 0⟩) (fun _ => 0) 0 22050 "AAAA" =
      Except.error "Detection error: Error processing audio: bad frame" := by
  have h := detect_short_circuit (fun _ => Except.error "bad frame")
    (fun l _ _ => l) (fun _ => Except.ok ⟨[0], 0, 0, [0], [0], 0⟩)
    (fun _ => 0) 0 22050 "AAAA"
  exact h.1 "Error processing audio: bad frame" rfl

/-- Downmixing an interleaved list of channel pairs yields the per-pair
arithmetic mean, elementwise. -/
theorem downmix_pairs : ∀ pairs : List (ℚ × ℚ),
    downmix_stereo (pairs.flatMap (fun p => [p.1, p.2])) =
      pairs.map (fun p => (p.1 + p.2) / 2)
  | [] => rfl
  | p :: rest => by
    simp only [List.flatMap_cons, List.cons_append, List.nil_append,
      List.map_cons, downmix_stereo]
    exact congrArg _ (downmix_pairs rest)

/-- Claim C5: a two-channel buffer with interleaved per-sample channel
values normalizes to the elementwise mean of the two channels, and in the
pipeline the downmix is applied before the conditional resampling: the
resampler receives the already-downmixed samples. -/
theorem stereo_downmix_before_resample (pairs : List (ℚ × ℚ))
    (mp3_decode : List Nat → Except String RawSegment)
    (resample : List ℚ → Nat → Nat → List ℚ)
    (sample_rate : Nat) (s : String) (bytes : List Nat) (seg : RawSegment) :
    downmix_stereo (pairs.flatMap (fun p => [p.1, p.2])) =
      pairs.map (fun p => (p.1 + p.2) / 2) ∧
    (b64decode s = Except.ok bytes → mp3_decode bytes = Except.ok seg →
      seg.channels = 2 →
      base64_to_audio mp3_decode resample sample_rate s = Except.ok
        ⟨(if seg.frame_rate ≠ sample_rate
            then resample (downmix_stereo (convert_width seg.sample_width seg.samples))
              seg.frame_rate sample_rate
            else downmix_stereo (convert_width seg.sample_width seg.samples)),
          sample_rate⟩) := by
  refine ⟨downmix_pairs pairs, ?_⟩
  intro hb hm hch
  unfold base64_to_audio base64_to_audio_body
  rw [hb, except_bind_ok, hm, except_bind_ok]
  simp [normalize_segment, hch]
  rfl

/-- Witness for C5: a concrete stereo segment with interleaved samples 1
and 3 normalizes to the single mono sample 2 before the identity
resampler is skipped. -/
theorem stereo_downmix_witness :
    base64_to_audio (fun _ => Except.ok ⟨2, 0, 22050, [1, 3]⟩)
      (fun l _ _ => l) 22050 "AAAA" = Except.ok ⟨[2], 22050⟩ := by
  have h := (stereo_downmix_before_resample []
    (fun _ => Except.ok ⟨2, 0, 22050, [1, 3]⟩) (fun l _ _ => l) 22050 "AAAA"
    [0, 0, 0] ⟨2, 0, 22050, [1, 3]⟩).2 rfl rfl rfl
  rw [h]
  norm_num [convert_width, downmix_stereo]

/-- The confidence component of the classification step is always at least
one half, whichever branch is taken. -/
theorem classify_snd_ge_half (t : ℚ) : 1 / 2 ≤ (classify t).2 := by
  unfold classify
  by_cases h : t ≥ 0.5
  · rw [if_pos h]
    have hm : (1 / 2 : ℚ) ≤ min 1 t := le_min (by norm_num) (by linarith)
    exact le_trans hm (le_max_right 0 _)
  · rw [if_neg h]
    have ht : t < 0.5 := not_le.mp h
    have hm : (1 / 2 : ℚ) ≤ min 1 (1 - t) := le_min (by norm_num) (by linarith)
    exact le_trans hm (le_max_right 0 _)

/-- Claim C10: whenever detect succeeds, the reported confidence is at
least one half: the confidence is either the score (at least 0.5 in the
AI branch) or one minus the score (above 0.5 in the HUMAN branch), and
the final clamp preserves this bound. -/
theorem detect_confidence_at_least_half
    (mp3_decode : List Nat → Except String RawSegment)
    (resample : List ℚ → Nat → Nat → List ℚ)
    (extract_body : AudioBuffer → Except String FeatureSet)
    (th : ℚ → ℚ) (noise : ℚ) (sample_rate : Nat) (s : String)
    (label : String) (confidence : ℚ)
    (hr : detect mp3_decode resample extract_body th noise sample_rate s =
      Except.ok (label, confidence)) :
    1 / 2 ≤ confidence := by
  obtain ⟨buf, features, hb, hx, hc⟩ :=
    detect_ok_elim mp3_decode resample extract_body th noise sample_rate s
      (label, confidence) hr
  have h2 : confidence = (classify (calculate_ai_score th noise features)).2 := by
    rw [← hc]
  rw [h2]
  exact classify_snd_ge_half (calculate_ai_score th noise features)

/-- Witness for C10: a concrete successful run of detect reports the
confidence 1, which is at least one half. -/
theorem detect_confidence_witness : (1 / 2 : ℚ) ≤ 1 := by
  have hr : detect (fun _ => Except.ok ⟨1, 2, 22050, []⟩) (fun l _ _ => l)
      (fun _ => Except.ok ⟨[0], 0, 0, [0], [0], 0⟩) (fun _ => 0) 0 22050 "" =
      Except.ok ("AI_GENERATED", 1) := by
    unfold detect detect_body base64_to_audio base64_to_audio_body
    rw [show b64decode "" = Except.ok [] from rfl, except_bind_ok, except_bind_ok]
    simp only [normalize_segment, convert_width, extract_features]
    norm_num [calculate_ai_score, npMean, classify, weight_mfcc, weight_spectral,
      weight_energy, weight_pitch, weight_harmonic, weight_temporal]
    rfl
  exact detect_confidence_at_least_half (fun _ => Except.ok ⟨1, 2, 22050, []⟩)
    (fun l _ _ => l) (fun _ => Except.ok ⟨[0], 0, 0, [0], [0], 0⟩)
    (fun _ => 0) 0 22050 "" "AI_GENERATED" 1 hr

/-- The downmix halves the sample count (one output sample per pair). -/
theorem downmix_stereo_length : ∀ xs : List ℚ,
    (downmix_stereo xs).length = xs.length / 2
  | [] => by simp [downmix_stereo]
  | [_] => by simp [downmix_stereo]
  | a :: b :: rest => by
    simp only [downmix_stereo, List.length_cons, downmix_stereo_length rest]
    omega

/-- The downmix keeps all samples inside the unit range: the mean of two
values in the range stays in the range. -/
theorem downmix_stereo_bounds : ∀ xs : List ℚ,
    (∀ x ∈ xs, -1 ≤ x ∧ x ≤ 1) → ∀ q ∈ downmix_stereo xs, -1 ≤ q ∧ q ≤ 1
  | [], _ => by simp [downmix_stereo]
  | [_], _ => by simp [downmix_stereo]
  | a :: b :: rest, h => by
    intro q hq
    simp only [downmix_stereo, List.mem_cons] at hq
    rcases hq with hq | hq
    · have ha := h a (by simp)
      have hb := h b (by simp)
      rw [hq]
      constructor
      · linarith [ha.1, hb.1]
      · linarith [ha.2, hb.2]
    · exact downmix_stereo_bounds rest (fun x hx => h x (by simp [hx])) q hq

/-- The float conversion keeps every sample count unchanged. -/
theorem convert_width_length (w : Nat) (xs : List Int) :
    (convert_width w xs).length = xs.length := by
  unfold convert_width
  split_ifs <;> exact List.length_map ..

/-- Full-scale 16-bit or 32-bit integer samples convert into the unit
range. -/
theorem convert_width_bounds (w : Nat) (xs : List Int)
    (hw : (w = 2 ∧ ∀ x ∈ xs, -32768 ≤ x ∧ x ≤ 32767) ∨
          (w = 4 ∧ ∀ x ∈ xs, -2147483648 ≤ x ∧ x ≤ 2147483647)) :
    ∀ q ∈ convert_width w xs, -1 ≤ q ∧ q ≤ 1 := by
  intro q hq
  rcases hw with ⟨hwv, hb⟩ | ⟨hwv, hb⟩
  · rw [hwv, show convert_width 2 xs = xs.map (fun (x : Int) => (x : ℚ) / 32768)
      from by norm_num [convert_width], List.mem_map] at hq
    obtain ⟨x, hx, hqx⟩ := hq
    subst hqx
    obtain ⟨hx1, hx2⟩ := hb x hx
    have hq1 : (-32768 : ℚ) ≤ (x : ℚ) := by exact_mod_cast hx1
    have hq2 : (x : ℚ) ≤ 32767 := by exact_mod_cast hx2
    constructor
    · rw [le_div_iff₀ (by norm_num : (0 : ℚ) < 32768)]
      linarith
    · rw [div_le_one (by norm_num : (0 : ℚ) < 32768)]
      linarith
  · rw [hwv, show convert_width 4 xs = xs.map (fun (x : Int) => (x : ℚ) / 2147483648)
      from by norm_num [convert_width], List.mem_map] at hq
    obtain ⟨x, hx, hqx⟩ := hq
    subst hqx
    obtain ⟨hx1, hx2⟩ := hb x hx
    have hq1 : (-2147483648 : ℚ) ≤ (x : ℚ) := by exact_mod_cast hx1
    have hq2 : (x : ℚ) ≤ 2147483647 := by exact_mod_cast hx2
    constructor
    · rw [le_div_iff₀ (by norm_num : (0 : ℚ) < 2147483648)]
      linarith
    · rw [div_le_one (by norm_num : (0 : ℚ) < 2147483648)]
      linarith

/-- Counterexample to claim C7 as stated (invariance regardless of channel
count and bit depth): a three-channel source is not downmixed, so the
produced buffer keeps three interleaved samples where a mono buffer of its
single frame would have one; and an 8-bit source (sample width 1) is not
normalized, so a sample value 200 stays far outside the unit range. -/
theorem audio_buffer_invariant_counterexample :
    (normalize_segment ⟨3, 2, 22050, [32000, 32000, 32000]⟩).length = 3 ∧
    (3 : Nat) / (3 : Nat) = 1 ∧
    normalize_segment ⟨1, 1, 22050, [200]⟩ = [200] ∧
    ¬ ((200 : ℚ) ≤ 1) := by
  refine ⟨?_, rfl, ?_, by norm_num⟩
  · simp [normalize_segment, convert_width]
  · simp [normalize_segment, convert_width]

/-- Claim C7 amended: for sources with one or two channels and 16-bit or
32-bit integer samples within full scale, the decode-and-normalize stage
produces a mono buffer (one sample per source frame) whose samples lie in
the unit range, and with no resampling needed this buffer is exactly what
the stage returns; the source does not downmix more than two channels and
does not rescale other bit depths. -/
theorem audio_buffer_invariant (seg : RawSegment)
    (hch : seg.channels = 1 ∨ seg.channels = 2)
    (heven : seg.channels = 2 → seg.samples.length % 2 = 0)
    (hw : (seg.sample_width = 2 ∧ ∀ x ∈ seg.samples, -32768 ≤ x ∧ x ≤ 32767) ∨
          (seg.sample_width = 4 ∧
            ∀ x ∈ seg.samples, -2147483648 ≤ x ∧ x ≤ 2147483647)) :
    (normalize_segment seg).length * seg.channels = seg.samples.length ∧
    (∀ q ∈ normalize_segment seg, -1 ≤ q ∧ q ≤ 1) ∧
    ∀ (mp3_decode : List Nat → Except String RawSegment)
      (resample : List ℚ → Nat → Nat → List ℚ) (s : String) (bytes : List Nat),
      b64decode s = Except.ok bytes → mp3_decode bytes = Except.ok seg →
      base64_to_audio mp3_decode resample seg.frame_rate s =
        Except.ok ⟨normalize_segment seg, seg.frame_rate⟩ := by
  have hbounds : ∀ q ∈ convert_width seg.sample_width seg.samples, -1 ≤ q ∧ q ≤ 1 :=
    convert_width_bounds seg.sample_width seg.samples hw
  refine ⟨?_, ?_, ?_⟩
  · rcases hch with hch | hch
    · have hn : normalize_segment seg = convert_width seg.sample_width seg.samples := by
        unfold normalize_segment
        rw [hch]
        simp
      rw [hn, convert_width_length, hch, Nat.mul_one]
    · have hn : normalize_segment seg =
          downmix_stereo (convert_width seg.sample_width seg.samples) := by
        unfold normalize_segment
        rw [hch]
        simp
      rw [hn, downmix_stereo_length, convert_width_length, hch]
      exact Nat.div_mul_cancel (Nat.dvd_of_mod_eq_zero (heven hch))
  · rcases hch with hch | hch
    · have hn : normalize_segment seg = convert_width seg.sample_width seg.samples := by
        unfold normalize_segment
        rw [hch]
        simp
      rw [hn]
      exact hbounds
    · have hn : normalize_segment seg =
          downmix_stereo (convert_width seg.sample_width seg.samples) := by
        unfold normalize_segment
        rw [hch]
        simp
      rw [hn]
      exact downmix_stereo_bounds _ hbounds
  · intro mp3_decode resample s bytes hb hm
    unfold base64_to_audio base64_to_audio_body
    rw [hb, except_bind_ok, hm, except_bind_ok]
    simp
    rfl

/-- Witness for the amended C7 at a concrete full-scale stereo 16-bit
segment: two interleaved samples become one mono sample inside the unit
range. -/
theorem audio_buffer_invariant_witness :
    (normalize_segment ⟨2, 2, 22050, [1000, -1000]⟩).length * 2 = 2 ∧
    ∀ q ∈ normalize_segment ⟨2, 2, 22050, [1000, -1000]⟩, -1 ≤ q ∧ q ≤ 1 := by
  have h := audio_buffer_invariant ⟨2, 2, 22050, [1000, -1000]⟩ (Or.inr rfl)
    (fun _ => by decide) (Or.inl ⟨rfl, by decide⟩)
  exact ⟨h.1, h.2.1⟩

/-- The code-point order on character lists is total. -/
theorem charListLe_total : ∀ as bs, charListLe as bs = true ∨ charListLe bs as = true
  | [], _ => Or.inl rfl
  | _ :: _, [] => Or.inr rfl
  | a :: as, b :: bs => by
    rcases Nat.lt_trichotomy a.toNat b.toNat with hlt | heq | hgt
    · left
      simp [charListLe, hlt]
    · have h1 : ¬ a.toNat < b.toNat := by omega
      have h2 : ¬ b.toNat < a.toNat := by omega
      rcases charListLe_total as bs with h | h
      · left
        simp [charListLe, h1, h2, h]
      · right
        simp [charListLe, h1, h2, h]
    · right
      simp [charListLe, hgt]

/-- The code-point order on character lists is transitive. -/
theorem charListLe_trans : ∀ as bs cs, charListLe as bs = true →
    charListLe bs cs = true → charListLe as cs = true
  | [], _, _ => fun _ _ => rfl
  | _ :: _, [], _ => by intro h _; simp [charListLe] at h
  | _ :: _, _ :: _, [] => by intro _ h; simp [charListLe] at h
  | a :: as, b :: bs, c :: cs => by
    intro h1 h2
    by_cases hab : a.toNat < b.toNat <;> by_cases hbc : b.toNat < c.toNat
    · simp [charListLe, show a.toNat < c.toNat by omega]
    · by_cases hcb : c.toNat < b.toNat
      · simp [charListLe, hbc, hcb] at h2
      · have hbceq : b.toNat = c.toNat := by omega
        simp [charListLe, show a.toNat < c.toNat by omega]
    · by_cases hba : b.toNat < a.toNat
      · simp [charListLe, hab, hba] at h1
      · have habq : a.toNat = b.toNat := by omega
        simp [charListLe, show a.toNat < c.toNat by omega]
    · by_cases hba : b.toNat < a.toNat
      · simp [charListLe, hab, hba] at h1
      · by_cases hcb : c.toNat < b.toNat
        · simp [charListLe, hbc, hcb] at h2
        · have hac1 : ¬ a.toNat < c.toNat := by omega
          have hac2 : ¬ c.toNat < a.toNat := by omega
          simp [charListLe, hab, hba] at h1
          simp [charListLe, hbc, hcb] at h2
          simp [charListLe, hac1, hac2]
          exact charListLe_trans as bs cs h1 h2

/-- The code-point order on character lists is antisymmetric. -/
theorem charListLe_antisymm : ∀ as bs, charListLe as bs = true →
    charListLe bs as = true → as = bs
  | [], [] => fun _ _ => rfl
  | [], _ :: _ => by intro _ h; simp [charListLe] at h
  | _ :: _, [] => by intro h _; simp [charListLe] at h
  | a :: as, b :: bs => by
    intro h1 h2
    by_cases hab : a.toNat < b.toNat
    · simp [charListLe, hab, show ¬ b.toNat < a.toNat by omega] at h2
    · by_cases hba : b.toNat < a.toNat
      · simp [charListLe, hab, hba] at h1
      · have he : a.toNat = b.toNat := by omega
        have hc : a = b := Char.ext (UInt32.ext he)
        simp [charListLe, hab, hba] at h1 h2
        rw [hc, charListLe_antisymm as bs h1 h2]

/-- A dictionary lookup is invariant under reordering of the underlying
association list when the keys are distinct: the dictionary is the same
mapping however its entries are stored. -/
theorem dictGet_perm {f g : List (String × FeatureVal)} (hperm : f.Perm g) :
    (f.map Prod.fst).Nodup → ∀ k, dictGet k f = dictGet k g := by
  induction hperm with
  | nil => intro _ _; rfl
  | cons x h ih =>
    intro hnd k
    cases x with
    | mk x1 x2 =>
      have hnd2 := (List.nodup_cons.mp hnd).2
      by_cases hk : k = x1
      · simp [dictGet, hk]
      · simp [dictGet, hk, ih hnd2 k]
  | swap x y l =>
    intro hnd k
    cases x with
    | mk x1 x2 =>
      cases y with
      | mk y1 y2 =>
        have hyx : y1 ≠ x1 := by
          have h := (List.nodup_cons.mp hnd).1
          intro hc
          exact h (by simp [hc])
        by_cases hky : k = y1 <;> by_cases hkx : k = x1
        · exact absurd (hky.symm.trans hkx) hyx
        · simp [dictGet, hky, hkx, hyx, Ne.symm hyx]
        · simp [dictGet, hky, hkx, hyx, Ne.symm hyx]
        · simp [dictGet, hky, hkx]
  | trans h1 h2 ih1 ih2 =>
    intro hnd k
    have hnd2 := (h1.map Prod.fst).nodup hnd
    rw [ih1 hnd k, ih2 hnd2 k]

/-- Congruence of flatMap over members. -/
theorem flatMap_congr_mem {α β : Type} : ∀ (l : List α) (F G : α → List β),
    (∀ x ∈ l, F x = G x) → l.flatMap F = l.flatMap G
  | [], _, _, _ => rfl
  | x :: rest, F, G, h => by
    simp only [List.flatMap_cons]
    rw [h x (by simp), flatMap_congr_mem rest F G (fun y hy => h y (by simp [hy]))]

/-- Iterating the keys of an association list with distinct keys and
expanding each looked-up value concatenates the stored values in entry
order. -/
theorem flatMap_keys_sorted : ∀ g : List (String × FeatureVal),
    (g.map Prod.fst).Nodup →
    (g.map Prod.fst).flatMap (fun key => match dictGet key g with
      | some v => expandVal v
      | none => []) = (g.map (fun e => expandVal e.2)).flatten
  | [], _ => rfl
  | (k, v) :: rest, hnd => by
    have hknotin : k ∉ rest.map Prod.fst := (List.nodup_cons.mp hnd).1
    have hnd2 : (rest.map Prod.fst).Nodup := (List.nodup_cons.mp hnd).2
    simp only [List.map_cons, List.flatMap_cons, List.flatten_cons]
    have hcong : (rest.map Prod.fst).flatMap
        (fun key => match dictGet key ((k, v) :: rest) with
          | some w => expandVal w
          | none => []) =
        (rest.map Prod.fst).flatMap
        (fun key => match dictGet key rest with
          | some w => expandVal w
          | none => []) := by
      apply flatMap_congr_mem
      intro key hkey
      have hne : key ≠ k := fun hc => hknotin (hc ▸ hkey)
      simp [dictGet, hne]
    congr 1
    · simp [dictGet]
    · rw [hcong, flatMap_keys_sorted rest hnd2]

/-- Claim C8: flatten iterates the feature names in lexicographic key
order and appends scalar entries as single values and vector entries in
index order, so the flat vector is determined by the underlying mapping
alone: for any stored order f of the dictionary and its lexicographically
sorted order g, the result is the concatenation of the expanded entries
of g. -/
theorem flatten_features_lex_order (f g : List (String × FeatureVal))
    (hnd : (f.map Prod.fst).Nodup) (hperm : f.Perm g)
    (hsorted : List.Sorted keyOrder (g.map Prod.fst)) :
    flatten_features f = (g.map (fun e => expandVal e.2)).flatten := by
  haveI : IsTrans String keyOrder :=
    ⟨fun a b c => charListLe_trans a.toList b.toList c.toList⟩
  haveI : IsTotal String keyOrder :=
    ⟨fun a b => charListLe_total a.toList b.toList⟩
  haveI : IsAntisymm String keyOrder :=
    ⟨fun a b h1 h2 => String.ext (charListLe_antisymm a.toList b.toList h1 h2)⟩
  have hkeysperm : (f.map Prod.fst).Perm (g.map Prod.fst) := hperm.map Prod.fst
  have hgnd : (g.map Prod.fst).Nodup := hkeysperm.nodup hnd
  have hsort_eq : List.insertionSort keyOrder (f.map Prod.fst) = g.map Prod.fst :=
    List.eq_of_perm_of_sorted ((List.perm_insertionSort keyOrder _).trans hkeysperm)
      (List.sorted_insertionSort keyOrder _) hsorted
  unfold flatten_features
  rw [hsort_eq]
  have hcong : (g.map Prod.fst).flatMap
      (fun key => match dictGet key f with
        | some v => expandVal v
        | none => []) =
      (g.map Prod.fst).flatMap
      (fun key => match dictGet key g with
        | some v => expandVal v
        | none => []) := by
    apply flatMap_congr_mem
    intro key hkey
    rw [dictGet_perm hperm hnd key]
  rw [hcong]
  exact flatMap_keys_sorted g hgnd

/-- Witness for C8: a concrete two-entry dictionary stored in reverse
order flattens to the scalar under the key a followed by the vector under
the key b in index order. -/
theorem flatten_features_lex_order_witness :
    flatten_features [("b", FeatureVal.vector [1, 2]), ("a", FeatureVal.scalar 3)] =
      [3, 1, 2] := by
  have h := flatten_features_lex_order
    [("b", FeatureVal.vector [1, 2]), ("a", FeatureVal.scalar 3)]
    [("a", FeatureVal.scalar 3), ("b", FeatureVal.vector [1, 2])]
    (by decide) (List.Perm.swap _ _ _) (by decide)
  rw [h]
  rfl

end VoiceDetection
